import Mathlib

/-!
Verification of the TEOTIL2 reporting notebooks.

This file embeds the two notebooks of the repository:

* `merge_old_new_results.ipynb` — the Series Reconciler: for each entry of a
  filename mapping it reads a legacy CSV, restricts it to an inclusive year
  window (`old_df.query("@old_st <= År <= @old_end")`), renames two legacy
  column names (`Befolkning → Avløp`, `Bakgrun → Bakgrunn`), reads the current
  CSV, row-concatenates the two tables (`pd.concat(..., axis="rows")`),
  rounds every cell (`.round(0)`, numpy round-half-to-even), casts to integer
  (`.astype(int)`, which raises on missing cells) and writes the result with
  `to_csv(..., index=False)`.

* `tables_to_excel.ipynb` — the Spreadsheet Exporter: for each region in a
  fixed ordered list and each parameter in `["p", "n"]` it reads the CSV
  `f"{region}_{par}.csv"` and appends it as a worksheet named
  `f"{region} ({par.capitalize()})"` with `index=False`.

Tables are modelled over exact rationals; a CSV row is an association list
from column name to value, and a table read from a CSV is well-formed when
every row carries exactly the header columns.
-/

/-- A CSV row: an association list from column name to numeric cell value. -/
abbrev Row := List (String × ℚ)

/-- Look up a column's value in a row (first matching key), mirroring pandas
label-based access. -/
def lookupCol (c : String) : Row → Option ℚ
  | [] => none
  | kv :: r => if kv.1 = c then some kv.2 else lookupCol c r

/-- A data table as produced by `pd.read_csv`: a header (column list) and a
list of rows. -/
structure Table where
  cols : List String
  rows : List Row
deriving DecidableEq

/-- A table read from a CSV file is well-formed: every row has exactly the
header's columns, in header order. -/
def Table.wf (t : Table) : Prop := ∀ r ∈ t.rows, r.map Prod.fst = t.cols

instance (t : Table) : Decidable t.wf := by
  unfold Table.wf; infer_instance

/-- Errors surfaced by the pipelines. `missingInput` embeds the
`FileNotFoundError` raised by `pd.read_csv` on an absent path (the spec's
`MissingInputError`); `undefinedVariable` embeds the error `DataFrame.query`
raises when the queried column is absent; `intCastingNaN` embeds the error
`astype(int)` raises when a cell is NaN (the failure the spec abstracts as
`SchemaMismatchError`). -/
inductive PipeError where
  | missingInput (path : String)
  | undefinedVariable (name : String)
  | intCastingNaN
deriving DecidableEq

/-- The column rename of the merge notebook:
`old_df.rename({"Befolkning": "Avløp", "Bakgrun": "Bakgrunn"}, axis="columns")`.
Identity on every other column name. -/
def renameCol (c : String) : String :=
  if c = "Befolkning" then "Avløp" else if c = "Bakgrun" then "Bakgrunn" else c

/-- Apply `renameCol` to a table's header and to every row's keys. -/
def renameTable (t : Table) : Table :=
  ⟨t.cols.map renameCol, t.rows.map (fun r => r.map (fun kv => (renameCol kv.1, kv.2)))⟩

/-- Does a row's `År` (year) value lie in the inclusive window `[s, e]`?
Mirrors the predicate of `old_df.query("@old_st <= År <= @old_end")`. -/
def rowInWindow (s e : ℚ) (r : Row) : Bool :=
  match lookupCol "År" r with
  | some y => decide (s ≤ y) && decide (y ≤ e)
  | none => false

/-- Keep exactly the rows whose year lies in the inclusive window. -/
def windowRows (s e : ℚ) (t : Table) : Table :=
  ⟨t.cols, t.rows.filter (rowInWindow s e)⟩

/-- The windowing step `old_df.query("@old_st <= År <= @old_end")`: pandas
raises `UndefinedVariableError` when the table has no `År` column, otherwise
filters rows to the inclusive window. -/
def queryWindow (s e : ℚ) (t : Table) : Except PipeError Table :=
  if "År" ∈ t.cols then .ok (windowRows s e t) else .error (.undefinedVariable "År")

/-- Column union in order of first appearance, as produced by
`pd.concat(axis="rows")` with the default `join="outer", sort=False`. -/
def unionCols (c1 c2 : List String) : List String :=
  c1 ++ c2.filter (fun c => decide (c ∉ c1))

/-- Reindex a row to a column list: a column the row does not carry becomes a
missing cell (pandas NaN). -/
def alignRow (cols : List String) (r : Row) : List (Option ℚ) :=
  cols.map (fun c => lookupCol c r)

/-- A concatenated frame: cells are optional, a `none` standing for NaN. -/
structure OTable where
  cols : List String
  cells : List (List (Option ℚ))
deriving DecidableEq

/-- Row-wise concatenation `pd.concat([t1, t2], axis="rows")`: columns are the
union in order of appearance and every row is reindexed to them, with NaN for
columns the row lacks. -/
def concatTables (t1 t2 : Table) : OTable :=
  let cs := unionCols t1.cols t2.cols
  ⟨cs, (t1.rows ++ t2.rows).map (alignRow cs)⟩

/-- Numpy's `round` to zero decimals, the rounding used by `.round(0)`: round
half to even (banker's rounding). The fractional part `q - ⌊q⌋` is compared
with one half through the equivalent condition on `2 * (q - ⌊q⌋)` against 1;
at an exact tie the even neighbour is chosen. -/
def roundHalfEven (q : ℚ) : ℤ :=
  if 2 * (q - ⌊q⌋) < 1 then ⌊q⌋
  else if 1 < 2 * (q - ⌊q⌋) then ⌊q⌋ + 1
  else if ⌊q⌋ % 2 = 0 then ⌊q⌋ else ⌊q⌋ + 1

/-- Truncation toward zero, the conversion a C-style float-to-int cast
(`astype(int)`) performs on a finite value. -/
def truncRat (q : ℚ) : ℤ := if 0 ≤ q then ⌊q⌋ else -⌊-q⌋

/-- `.round(0)` on one cell: NaN stays NaN, a value is rounded half-to-even
(still held as a float at this point of the pipeline). -/
def roundCell (c : Option ℚ) : Option ℚ :=
  c.map (fun q => ((roundHalfEven q : ℤ) : ℚ))

/-- `.round(0)` applied to every cell of a concatenated frame. -/
def roundOTable (t : OTable) : OTable :=
  ⟨t.cols, t.cells.map (fun r => r.map roundCell)⟩

/-- `astype(int)` on one cell: fails on NaN, truncates a finite value. -/
def cellToInt : Option ℚ → Option ℤ
  | none => none
  | some q => some (truncRat q)

/-- Cast a whole row to integers; `none` when any cell is NaN. -/
def rowToInt : List (Option ℚ) → Option (List ℤ)
  | [] => some []
  | c :: cs =>
    match cellToInt c, rowToInt cs with
    | some i, some is => some (i :: is)
    | _, _ => none

/-- Cast all rows to integers; `none` when any cell anywhere is NaN. -/
def rowsToInt : List (List (Option ℚ)) → Option (List (List ℤ))
  | [] => some []
  | r :: rs =>
    match rowToInt r, rowsToInt rs with
    | some i, some is => some (i :: is)
    | _, _ => none

/-- An integer-typed table, the shape of the persisted merged output. -/
structure ITable where
  cols : List String
  cells : List (List ℤ)
deriving DecidableEq

/-- `.astype(int)` on a frame: raises `IntCastingNaNError` when any cell is
NaN, otherwise yields the integer table. -/
def astypeInt (t : OTable) : Except PipeError ITable :=
  match rowsToInt t.cells with
  | some cs => .ok ⟨t.cols, cs⟩
  | none => .error .intCastingNaN

/-- `os.path.join` for the forward-slash paths the notebooks use. -/
def pathJoin (fold fname : String) : String := fold ++ "/" ++ fname

/-- A directory of CSV files: association of path to parsed table. -/
abbrev Store := List (String × Table)

/-- `pd.read_csv`: `some` the parsed table when the path exists in the store,
`none` when the file is absent. -/
def readCsv (st : Store) (p : String) : Option Table :=
  match st with
  | [] => none
  | f :: rest => if f.1 = p then some f.2 else readCsv rest p

/-- The invocation-time configuration of the merge notebook: store paths, the
two directories' contents, and the historical window `old_st, old_end`. -/
structure MergeConfig where
  oldFold : String
  newFold : String
  mergeFold : String
  oldStore : Store
  newStore : Store
  oldSt : ℚ
  oldEnd : ℚ

/-- The body of the merge loop for one mapping entry `(new_fname, old_fname)`:
read the legacy CSV (error if absent), window it, rename columns, read the
current CSV (error if absent), concatenate, round and cast to int. The
returned table is what `to_csv(out_fpath, index=False)` persists. -/
def mergePair (cfg : MergeConfig) (newFname oldFname : String) : Except PipeError ITable :=
  match readCsv cfg.oldStore (pathJoin cfg.oldFold oldFname) with
  | none => .error (.missingInput (pathJoin cfg.oldFold oldFname))
  | some oldT =>
    match queryWindow cfg.oldSt cfg.oldEnd oldT with
    | .error err => .error err
    | .ok oldW =>
      match readCsv cfg.newStore (pathJoin cfg.newFold newFname) with
      | none => .error (.missingInput (pathJoin cfg.newFold newFname))
      | some newT => astypeInt (roundOTable (concatTables (renameTable oldW) newT))

/-- The outcome of the merge loop: the output files written (path and
content, in write order) and the uncaught error that stopped the loop, if
any. -/
structure BatchResult where
  written : List (String × ITable)
  err : Option PipeError
deriving DecidableEq

/-- The merge loop `for new_fname, old_fname in fname_dict.items()`: entries
are processed in mapping order; each success writes one output file under the
current filename; an uncaught error stops the loop at once, leaving earlier
outputs in place and later entries unprocessed. -/
def runBatch (cfg : MergeConfig) : List (String × String) → BatchResult
  | [] => ⟨[], none⟩
  | entry :: rest =>
    match mergePair cfg entry.1 entry.2 with
    | .error e => ⟨[], some e⟩
    | .ok t =>
      let r := runBatch cfg rest
      ⟨(pathJoin cfg.mergeFold entry.1, t) :: r.written, r.err⟩

/-- Python's `str.capitalize`: first character uppercased, the rest
lowercased. -/
def pyCapitalize (s : String) : String :=
  match s.data with
  | [] => ""
  | c :: cs => String.mk (c.toUpper :: cs.map Char.toLower)

/-- The worksheet name `f"{region} ({par.capitalize()})"`. -/
def sheetName (region par : String) : String :=
  region ++ " (" ++ pyCapitalize par ++ ")"

/-- Inner loop of the exporter: for one region, read each parameter's CSV in
parameter order and append one sheet per parameter. A missing CSV raises
(`FileNotFoundError` from `pd.read_csv`). Sheets carry the CSV table
unchanged (`index=False`: no synthetic index column). -/
def exportPars (store : Store) (dataFold region : String) :
    List String → Except PipeError (List (String × Table))
  | [] => .ok []
  | par :: rest =>
    match readCsv store (pathJoin dataFold (region ++ "_" ++ par ++ ".csv")) with
    | none => .error (.missingInput (pathJoin dataFold (region ++ "_" ++ par ++ ".csv")))
    | some df =>
      match exportPars store dataFold region rest with
      | .error e => .error e
      | .ok sheets => .ok ((sheetName region par, df) :: sheets)

/-- Outer loop of the exporter: regions in list order, parameters within each
region; the resulting list is the workbook's sheets in order. -/
def exportAll (store : Store) (dataFold : String) (pars : List String) :
    List String → Except PipeError (List (String × Table))
  | [] => .ok []
  | region :: rest =>
    match exportPars store dataFold region pars with
    | .error e => .error e
    | .ok sheets =>
      match exportAll store dataFold pars rest with
      | .error e => .error e
      | .ok more => .ok (sheets ++ more)

/-- Order-insensitive equality of column sets. -/
def sameColSet (a b : List String) : Prop := ∀ c, c ∈ a ↔ c ∈ b

/-- The thirty consecutive years 1990–2019 of the merge scenario's legacy
table. -/
def demoYears : List ℚ :=
  [1990, 1991, 1992, 1993, 1994, 1995, 1996, 1997, 1998, 1999,
   2000, 2001, 2002, 2003, 2004, 2005, 2006, 2007, 2008, 2009,
   2010, 2011, 2012, 2013, 2014, 2015, 2016, 2017, 2018, 2019]

/-- The merge scenario's legacy table: years 1990–2019 with the legacy column
names `[År, Bakgrun, Befolkning, Jordbruk]`. -/
def demoLegacy : Table :=
  ⟨["År", "Bakgrun", "Befolkning", "Jordbruk"],
   demoYears.map (fun y => [("År", y), ("Bakgrun", 10), ("Befolkning", 20), ("Jordbruk", 30)])⟩

theorem rowInWindow_iff (s e : ℚ) (r : Row) :
    rowInWindow s e r = true ↔ ∃ y, lookupCol "År" r = some y ∧ s ≤ y ∧ y ≤ e := by
  unfold rowInWindow
  rcases h : lookupCol "År" r with _ | y <;> simp [h]

/-- C4: the windowing step keeps exactly those rows whose year-column value y
satisfies start ≤ y ≤ end, both endpoints inclusive, and discards every other
row; with start = 1990, end = 2017 and legacy years 1990–2019 exactly 28 rows
are kept. -/
theorem windowing_inclusive :
    (∀ (t : Table) (s e : ℚ) (r : Row),
      r ∈ (windowRows s e t).rows ↔
        r ∈ t.rows ∧ ∃ y, lookupCol "År" r = some y ∧ s ≤ y ∧ y ≤ e) ∧
    (windowRows 1990 2017 demoLegacy).rows.length = 28 := by
  constructor
  · intro t s e r
    show r ∈ t.rows.filter (rowInWindow s e) ↔ _
    rw [List.mem_filter, rowInWindow_iff]
  · decide

/-- C5: the column rename maps `Befolkning` to `Avløp` and `Bakgrun` to
`Bakgrunn`, and is the identity on every other column name; applied to a
table it renames every header entry. -/
theorem rename_spec :
    renameCol "Befolkning" = "Avløp" ∧ renameCol "Bakgrun" = "Bakgrunn" ∧
    (∀ c : String, c ≠ "Befolkning" → c ≠ "Bakgrun" → renameCol c = c) ∧
    (∀ t : Table, (renameTable t).cols = t.cols.map renameCol) := by
  refine ⟨by decide, by decide, fun c h1 h2 => ?_, fun t => rfl⟩
  unfold renameCol
  rw [if_neg h1, if_neg h2]

/-- Witness for C5: evaluated on the concrete column names of the merge
scenario. -/
theorem rename_spec_witness :
    renameCol "Jordbruk" = "Jordbruk" ∧ renameCol "Befolkning" = "Avløp" :=
  ⟨rename_spec.2.2.1 "Jordbruk" (by decide) (by decide), rename_spec.1⟩

theorem roundHalfEven_intCast (n : ℤ) : roundHalfEven ((n : ℤ) : ℚ) = n := by
  unfold roundHalfEven
  rw [Int.floor_intCast]
  norm_num

theorem truncRat_intCast (n : ℤ) : truncRat ((n : ℤ) : ℚ) = n := by
  unfold truncRat
  by_cases h : (0 : ℚ) ≤ (n : ℚ)
  · rw [if_pos h, Int.floor_intCast]
  · rw [if_neg h, ← Int.cast_neg, Int.floor_intCast, neg_neg]

theorem roundHalfEven_dist (q : ℚ) : |q - ((roundHalfEven q : ℤ) : ℚ)| ≤ 1/2 := by
  have h0 : ((⌊q⌋ : ℤ) : ℚ) ≤ q := Int.floor_le q
  have h1 : q < ⌊q⌋ + 1 := Int.lt_floor_add_one q
  rw [abs_le]
  unfold roundHalfEven
  split
  next hlt => constructor <;> linarith
  next hge =>
    split
    next hgt => push_cast; constructor <;> linarith
    next hle =>
      have heq : 2 * (q - ⌊q⌋) = 1 := le_antisymm (not_lt.1 hle) (not_lt.1 hge)
      split <;> (push_cast; constructor <;> linarith)

theorem lookupCol_isSome (c : String) (r : Row) :
    (lookupCol c r).isSome = true ↔ c ∈ r.map Prod.fst := by
  induction r with
  | nil => simp [lookupCol]
  | cons kv rest ih =>
    simp only [lookupCol, List.map_cons, List.mem_cons]
    split
    next h => simp [h.symm]
    next h =>
      rw [ih]
      constructor
      · exact Or.inr
      · rintro (h' | h')
        · exact absurd h'.symm h
        · exact h'

theorem lookupCol_eq_none (c : String) (r : Row) :
    lookupCol c r = none ↔ c ∉ r.map Prod.fst := by
  rw [← lookupCol_isSome, Bool.not_eq_true, Option.not_isSome_iff_eq_none.symm]
  simp

theorem mem_unionCols {c : String} {c1 c2 : List String} :
    c ∈ unionCols c1 c2 ↔ c ∈ c1 ∨ c ∈ c2 := by
  simp only [unionCols, List.mem_append, List.mem_filter, decide_eq_true_iff]
  constructor
  · rintro (h | ⟨h, _⟩)
    · exact Or.inl h
    · exact Or.inr h
  · rintro (h | h)
    · exact Or.inl h
    · by_cases h1 : c ∈ c1
      · exact Or.inl h1
      · exact Or.inr ⟨h, h1⟩

theorem windowRows_wf (s e : ℚ) (t : Table) (h : t.wf) : (windowRows s e t).wf :=
  fun r hr => h r (List.mem_of_mem_filter hr)

theorem renameTable_wf (t : Table) (h : t.wf) : (renameTable t).wf := by
  intro r hr
  simp only [renameTable, List.mem_map] at hr
  obtain ⟨r0, hr0, rfl⟩ := hr
  show (r0.map (fun kv => (renameCol kv.1, kv.2))).map Prod.fst = t.cols.map renameCol
  rw [← h r0 hr0, List.map_map, List.map_map]
  rfl

theorem roundCell_eq_none (c : Option ℚ) : roundCell c = none ↔ c = none := by
  cases c <;> simp [roundCell]

theorem rowToInt_eq_none_iff (cs : List (Option ℚ)) :
    rowToInt cs = none ↔ none ∈ cs := by
  induction cs with
  | nil => simp [rowToInt]
  | cons c rest ih =>
    rcases c with _ | q
    · simp [rowToInt, cellToInt]
    · rcases h : rowToInt rest with _ | is
      · simp only [rowToInt, cellToInt, h, List.mem_cons]
        exact iff_of_true trivial (Or.inr (ih.1 h))
      · simp only [rowToInt, cellToInt, h, List.mem_cons]
        constructor
        · intro h'; cases h'
        · rintro (h' | h')
          · cases h'
          · rw [ih.2 h'] at h; cases h

theorem rowsToInt_eq_none_iff (rs : List (List (Option ℚ))) :
    rowsToInt rs = none ↔ ∃ r ∈ rs, rowToInt r = none := by
  induction rs with
  | nil => simp [rowsToInt]
  | cons r rest ih =>
    rcases h : rowToInt r with _ | is
    · simp only [rowsToInt, h]
      exact iff_of_true trivial ⟨r, List.mem_cons_self r rest, h⟩
    · rcases h2 : rowsToInt rest with _ | iss
      · simp only [rowsToInt, h, h2]
        obtain ⟨r0, hr0, hnone⟩ := ih.1 h2
        exact iff_of_true trivial ⟨r0, List.mem_cons_of_mem r hr0, hnone⟩
      · simp only [rowsToInt, h, h2]
        constructor
        · intro h'; cases h'
        · rintro ⟨r0, hr0, hnone⟩
          rcases List.mem_cons.1 hr0 with rfl | hr0
          · rw [hnone] at h; cases h
          · rw [(ih.2 ⟨r0, hr0, hnone⟩ : rowsToInt rest = none)] at h2; cases h2

theorem astypeInt_ok_iff (X : OTable) :
    (∃ t, astypeInt X = .ok t) ↔ rowsToInt X.cells ≠ none := by
  unfold astypeInt
  rcases h : rowsToInt X.cells with _ | cs <;> simp [h]

theorem none_mem_alignRow (U : List String) (r : Row) :
    none ∈ alignRow U r ↔ ∃ u ∈ U, lookupCol u r = none := by
  simp only [alignRow, List.mem_map]

theorem concat_round_fail_iff (a b : Table) (ha : a.wf) (hb : b.wf) :
    rowsToInt (roundOTable (concatTables a b)).cells = none ↔
      ((a.rows ≠ [] ∧ ¬ ∀ c ∈ b.cols, c ∈ a.cols) ∨
       (b.rows ≠ [] ∧ ¬ ∀ c ∈ a.cols, c ∈ b.cols)) := by
  have hcells : (roundOTable (concatTables a b)).cells =
      ((a.rows ++ b.rows).map (alignRow (unionCols a.cols b.cols))).map
        (fun r => r.map roundCell) := rfl
  rw [hcells, rowsToInt_eq_none_iff]
  constructor
  · rintro ⟨r, hr, hnone⟩
    rw [rowToInt_eq_none_iff] at hnone
    obtain ⟨r1, hr1, rfl⟩ := List.mem_map.1 hr
    obtain ⟨r0, hr0, rfl⟩ := List.mem_map.1 hr1
    rw [List.mem_map] at hnone
    obtain ⟨c, hc, hcnone⟩ := hnone
    rw [roundCell_eq_none] at hcnone
    subst hcnone
    obtain ⟨u, hu, hlook⟩ := (none_mem_alignRow _ _).1 hc
    rcases List.mem_append.1 hr0 with hmem | hmem
    · rw [lookupCol_eq_none, ha r0 hmem] at hlook
      have hub : u ∈ b.cols := (mem_unionCols.1 hu).resolve_left hlook
      exact Or.inl ⟨List.ne_nil_of_mem hmem, fun hall => hlook (hall u hub)⟩
    · rw [lookupCol_eq_none, hb r0 hmem] at hlook
      have hua : u ∈ a.cols := (mem_unionCols.1 hu).resolve_right hlook
      exact Or.inr ⟨List.ne_nil_of_mem hmem, fun hall => hlook (hall u hua)⟩
  · rintro (⟨hne, hnot⟩ | ⟨hne, hnot⟩)
    · push_neg at hnot
      obtain ⟨u, hub, hua⟩ := hnot
      obtain ⟨r0, hr0⟩ := List.exists_mem_of_ne_nil _ hne
      refine ⟨(alignRow (unionCols a.cols b.cols) r0).map roundCell,
        List.mem_map.2 ⟨alignRow (unionCols a.cols b.cols) r0,
          List.mem_map.2 ⟨r0, List.mem_append.2 (Or.inl hr0), rfl⟩, rfl⟩, ?_⟩
      rw [rowToInt_eq_none_iff, List.mem_map]
      refine ⟨none, ?_, rfl⟩
      exact (none_mem_alignRow _ _).2
        ⟨u, mem_unionCols.2 (Or.inr hub), (lookupCol_eq_none u r0).2 (by rw [ha r0 hr0]; exact hua)⟩
    · push_neg at hnot
      obtain ⟨u, hua, hub⟩ := hnot
      obtain ⟨r0, hr0⟩ := List.exists_mem_of_ne_nil _ hne
      refine ⟨(alignRow (unionCols a.cols b.cols) r0).map roundCell,
        List.mem_map.2 ⟨alignRow (unionCols a.cols b.cols) r0,
          List.mem_map.2 ⟨r0, List.mem_append.2 (Or.inr hr0), rfl⟩, rfl⟩, ?_⟩
      rw [rowToInt_eq_none_iff, List.mem_map]
      refine ⟨none, ?_, rfl⟩
      exact (none_mem_alignRow _ _).2
        ⟨u, mem_unionCols.2 (Or.inl hua), (lookupCol_eq_none u r0).2 (by rw [hb r0 hr0]; exact hub)⟩

theorem merge_ok_iff (a b : Table) (ha : a.wf) (hb : b.wf) :
    (∃ t, astypeInt (roundOTable (concatTables a b)) = .ok t) ↔
      ((a.rows = [] ∨ ∀ c ∈ b.cols, c ∈ a.cols) ∧
       (b.rows = [] ∨ ∀ c ∈ a.cols, c ∈ b.cols)) := by
  rw [astypeInt_ok_iff, Ne, concat_round_fail_iff a b ha hb]
  constructor
  · intro h
    constructor
    · by_cases h1 : a.rows = []
      · exact Or.inl h1
      · exact Or.inr (not_not.1 fun hn => h (Or.inl ⟨h1, hn⟩))
    · by_cases h1 : b.rows = []
      · exact Or.inl h1
      · exact Or.inr (not_not.1 fun hn => h (Or.inr ⟨h1, hn⟩))
  · rintro ⟨h1, h2⟩ (⟨hne, hnot⟩ | ⟨hne, hnot⟩)
    · rcases h1 with h1 | h1
      · exact hne h1
      · exact hnot h1
    · rcases h2 with h2 | h2
      · exact hne h2
      · exact hnot h2

theorem astypeInt_ok_or_error (X : OTable) :
    (∃ t, astypeInt X = .ok t) ∨ astypeInt X = .error .intCastingNaN := by
  unfold astypeInt
  rcases h : rowsToInt X.cells with _ | cs
  · exact Or.inr rfl
  · exact Or.inl ⟨_, rfl⟩

theorem astypeInt_ok_elim (X : OTable) (t : ITable) (h : astypeInt X = .ok t) :
    rowsToInt X.cells = some t.cells ∧ t.cols = X.cols := by
  unfold astypeInt at h
  rcases h2 : rowsToInt X.cells with _ | cs
  · rw [h2] at h; cases h
  · rw [h2] at h; cases h; exact ⟨rfl, rfl⟩

theorem mergePair_eq (cfg : MergeConfig) (newF oldF : String) (oldT newT : Table)
    (hold : readCsv cfg.oldStore (pathJoin cfg.oldFold oldF) = some oldT)
    (hyr : "År" ∈ oldT.cols)
    (hnew : readCsv cfg.newStore (pathJoin cfg.newFold newF) = some newT) :
    mergePair cfg newF oldF =
      astypeInt (roundOTable (concatTables
        (renameTable (windowRows cfg.oldSt cfg.oldEnd oldT)) newT)) := by
  simp only [mergePair, hold, queryWindow, if_pos hyr, hnew]

theorem sameColSet_iff_subsets (A B : List String) :
    sameColSet A B ↔ ((∀ c ∈ B, c ∈ A) ∧ (∀ c ∈ A, c ∈ B)) := by
  constructor
  · intro h
    exact ⟨fun c hc => (h c).2 hc, fun c hc => (h c).1 hc⟩
  · intro h c
    exact ⟨fun hc => h.2 c hc, fun hc => h.1 c hc⟩

theorem renameTable_rows_nil (t : Table) : (renameTable t).rows = [] ↔ t.rows = [] := by
  simp [renameTable]

theorem merge_error_of_not_ok (X : OTable) (h : ¬ ∃ t, astypeInt X = .ok t) :
    astypeInt X = .error .intCastingNaN :=
  (astypeInt_ok_or_error X).resolve_left h

theorem runBatch_written_mem (cfg : MergeConfig) (mapping : List (String × String)) :
    ∀ q ∈ (runBatch cfg mapping).written,
      ∃ entry ∈ mapping, q.1 = pathJoin cfg.mergeFold entry.1 ∧
        mergePair cfg entry.1 entry.2 = .ok q.2 := by
  induction mapping with
  | nil => intro q hq; cases hq
  | cons e rest ih =>
    intro q hq
    rcases h : mergePair cfg e.1 e.2 with err | t
    · simp only [runBatch, h] at hq
      cases hq
    · simp only [runBatch, h, List.mem_cons] at hq
      rcases hq with rfl | hq
      · exact ⟨e, List.mem_cons_self e rest, rfl, h⟩
      · obtain ⟨e', he', hp, h'⟩ := ih q hq
        exact ⟨e', List.mem_cons_of_mem e he', hp, h'⟩

theorem runBatch_no_output (cfg : MergeConfig) (mapping : List (String × String))
    (newF : String)
    (hfail : ∀ entry ∈ mapping,
      pathJoin cfg.mergeFold entry.1 = pathJoin cfg.mergeFold newF →
      ∀ t, mergePair cfg entry.1 entry.2 ≠ .ok t) :
    ∀ t, (pathJoin cfg.mergeFold newF, t) ∉ (runBatch cfg mapping).written := by
  intro t hmem
  obtain ⟨entry, hent, hpath, hok⟩ := runBatch_written_mem cfg mapping _ hmem
  exact hfail entry hent hpath.symm t hok

theorem runBatch_cons_ok (cfg : MergeConfig) (e : String × String)
    (rest : List (String × String)) (t : ITable) (h : mergePair cfg e.1 e.2 = .ok t) :
    runBatch cfg (e :: rest) =
      ⟨(pathJoin cfg.mergeFold e.1, t) :: (runBatch cfg rest).written,
       (runBatch cfg rest).err⟩ := by
  simp only [runBatch, h]

theorem runBatch_cons_error (cfg : MergeConfig) (e : String × String)
    (rest : List (String × String)) (err : PipeError)
    (h : mergePair cfg e.1 e.2 = .error err) :
    runBatch cfg (e :: rest) = ⟨[], some err⟩ := by
  simp only [runBatch, h]

theorem rowsToInt_length (rs : List (List (Option ℚ))) (cs : List (List ℤ))
    (h : rowsToInt rs = some cs) : cs.length = rs.length := by
  induction rs generalizing cs with
  | nil =>
    unfold rowsToInt at h
    cases h
    rfl
  | cons r rest ih =>
    unfold rowsToInt at h
    rcases h1 : rowToInt r with _ | i <;> rw [h1] at h
    · cases h
    · rcases h2 : rowsToInt rest with _ | cs' <;> rw [h2] at h
      · cases h
      · cases h
        simp [ih cs' h2]

theorem rowsToInt_append (a b : List (List (Option ℚ))) (c : List (List ℤ))
    (h : rowsToInt (a ++ b) = some c) :
    ∃ ca cb, rowsToInt a = some ca ∧ rowsToInt b = some cb ∧ c = ca ++ cb := by
  induction a generalizing c with
  | nil => exact ⟨[], c, rfl, h, rfl⟩
  | cons r rs ih =>
    rw [List.cons_append] at h
    unfold rowsToInt at h
    rcases h1 : rowToInt r with _ | i <;> rw [h1] at h
    · cases h
    · rcases h2 : rowsToInt (rs ++ b) with _ | cs <;> rw [h2] at h
      · cases h
      · cases h
        obtain ⟨ca, cb, ha2, hb2, rfl⟩ := ih cs h2
        refine ⟨i :: ca, cb, ?_, hb2, rfl⟩
        unfold rowsToInt
        rw [h1, ha2]

/-- C6: numeric normalization rounds every cell to a nearest integer (the
rounded value is within one half of the original), the subsequent integer
cast is exact on a rounded cell so every persisted cell is an integer with no
fractional component, rounding is a no-op on an already-integer value, and
the normalization is idempotent. -/
theorem normalization_spec :
    (∀ q : ℚ, |q - ((roundHalfEven q : ℤ) : ℚ)| ≤ 1/2) ∧
    (∀ q : ℚ, cellToInt (roundCell (some q)) = some (roundHalfEven q)) ∧
    (∀ n : ℤ, roundHalfEven ((n : ℤ) : ℚ) = n) ∧
    (∀ q : ℚ, roundHalfEven ((roundHalfEven q : ℤ) : ℚ) = roundHalfEven q) := by
  refine ⟨roundHalfEven_dist, fun q => ?_, roundHalfEven_intCast,
    fun q => roundHalfEven_intCast _⟩
  show some (truncRat ((roundHalfEven q : ℤ) : ℚ)) = some (roundHalfEven q)
  rw [truncRat_intCast]

/-- A pair of concrete input tables whose column sets agree after renaming:
the legacy table uses the misspelled `Bakgrun`, the current one `Bakgrunn`. -/
def wOld : Table := ⟨["År", "Bakgrun"], [[("År", 1995), ("Bakgrun", 3)]]⟩

/-- The current table matching `wOld` after the rename. -/
def wNew : Table := ⟨["År", "Bakgrunn"], [[("År", 2018), ("Bakgrunn", 4)]]⟩

/-- A concrete configuration holding `wOld` and `wNew` under the mapped
filenames. -/
def wCfg : MergeConfig :=
  ⟨"jose_data", "data", "out",
   [(pathJoin "jose_data" "W.csv", wOld)],
   [(pathJoin "data" "W.csv", wNew)], 1990, 2017⟩

/-- C1 (amended): when both the renamed windowed legacy table and the current
table contain at least one row, processing the pair succeeds exactly when the
two tables have the same column set compared order-insensitively — so
reordering the current table's columns never triggers the failure — and
differing column sets make the pair fail with the `astype(int)` cast error,
the code's realization of the spec's `SchemaMismatchError`. (The claim's
unconditional "differing column sets always fail" is refuted by the empty
windowed-table counterexample.) -/
theorem schema_mismatch_amended (cfg : MergeConfig) (newF oldF : String)
    (oldT newT : Table)
    (hold : readCsv cfg.oldStore (pathJoin cfg.oldFold oldF) = some oldT)
    (hyr : "År" ∈ oldT.cols)
    (hnew : readCsv cfg.newStore (pathJoin cfg.newFold newF) = some newT)
    (hwfo : oldT.wf) (hwfn : newT.wf)
    (hne1 : (windowRows cfg.oldSt cfg.oldEnd oldT).rows ≠ [])
    (hne2 : newT.rows ≠ []) :
    ((∃ t, mergePair cfg newF oldF = .ok t) ↔
      sameColSet (renameTable (windowRows cfg.oldSt cfg.oldEnd oldT)).cols newT.cols) ∧
    (¬ sameColSet (renameTable (windowRows cfg.oldSt cfg.oldEnd oldT)).cols newT.cols →
      mergePair cfg newF oldF = .error PipeError.intCastingNaN) := by
  have heq := mergePair_eq cfg newF oldF oldT newT hold hyr hnew
  have hawf : (renameTable (windowRows cfg.oldSt cfg.oldEnd oldT)).wf :=
    renameTable_wf _ (windowRows_wf _ _ _ hwfo)
  have hane : (renameTable (windowRows cfg.oldSt cfg.oldEnd oldT)).rows ≠ [] :=
    fun hnil => hne1 ((renameTable_rows_nil _).1 hnil)
  have hiff2 : (∃ t, mergePair cfg newF oldF = .ok t) ↔
      sameColSet (renameTable (windowRows cfg.oldSt cfg.oldEnd oldT)).cols newT.cols := by
    rw [heq, merge_ok_iff _ newT hawf hwfn, sameColSet_iff_subsets]
    constructor
    · rintro ⟨h1 | h1, h2 | h2⟩
      · exact absurd h1 hane
      · exact absurd h1 hane
      · exact absurd h2 hne2
      · exact ⟨h1, h2⟩
    · intro h
      exact ⟨Or.inr h.1, Or.inr h.2⟩
  refine ⟨hiff2, fun hdiff => ?_⟩
  rw [heq]
  exact merge_error_of_not_ok _ (fun hok => hdiff (hiff2.1 (by rw [heq]; exact hok)))

/-- A legacy table with a column `Gammel` the current table lacks; its row
lies inside the window, so the windowed slice is nonempty. -/
def vOld : Table := ⟨["År", "Gammel"], [[("År", 1995), ("Gammel", 1)]]⟩

/-- A current table with a column `Ekstra` the legacy table lacks. -/
def vNew : Table := ⟨["År", "Ekstra"], [[("År", 2018), ("Ekstra", 5)]]⟩

/-- Configuration holding the mismatched nonempty pair `vOld`, `vNew`. -/
def vCfg : MergeConfig :=
  ⟨"jose_data", "data", "out",
   [(pathJoin "jose_data" "V.csv", vOld)],
   [(pathJoin "data" "V.csv", vNew)], 1990, 2017⟩

/-- Witness for C1 (amended): on the concrete mismatched pair `vOld`, `vNew`,
both nonempty, the merge fails with the integer-cast error. -/
theorem schema_mismatch_amended_witness :
    mergePair vCfg "V.csv" "V.csv" = .error PipeError.intCastingNaN :=
  (schema_mismatch_amended vCfg "V.csv" "V.csv" vOld vNew (by decide) (by decide)
    (by decide) (by decide) (by decide) (by decide) (by decide)).2
    (fun h => absurd ((h "Ekstra").2 (by decide)) (by decide))

/-- A legacy table whose single row lies outside the historical window, so
the windowed slice is empty. -/
def cxOld : Table := ⟨["År"], [[("År", 1980)]]⟩

/-- A current table with an extra column `Ekstra` absent from `cxOld`. -/
def cxNew : Table := ⟨["År", "Ekstra"], [[("År", 2018), ("Ekstra", 5)]]⟩

/-- The counterexample configuration: the stores hold `cxOld` and `cxNew`
under the notebook's directory names. -/
def cxCfg : MergeConfig :=
  ⟨"../report_2020/jose_data", "../report_2020/data",
   "../report_2020/jose_data_updated_2018-20",
   [(pathJoin "../report_2020/jose_data" "L.csv", cxOld)],
   [(pathJoin "../report_2020/data" "C.csv", cxNew)], 1990, 2017⟩

unseal Rat.sub Rat.mul in
/-- Counterexample to C1 as stated: the renamed windowed legacy table and the
current table have different column sets (`Ekstra` only on one side), yet the
merge for the pair succeeds — no error of any kind is raised, because the
windowed legacy slice is empty so the concatenation has no missing cell. -/
theorem schema_mismatch_counterexample :
    (¬ sameColSet (renameTable (windowRows 1990 2017 cxOld)).cols cxNew.cols) ∧
    mergePair cxCfg "C.csv" "L.csv" = .ok ⟨["År", "Ekstra"], [[2018, 5]]⟩ := by
  constructor
  · intro h
    exact absurd ((h "Ekstra").2 (by decide)) (by decide)
  · rfl

theorem astypeInt_eq_error (X : OTable) (h : rowsToInt X.cells = none) :
    astypeInt X = .error .intCastingNaN := by
  unfold astypeInt
  rw [h]

/-- C2 (amended): for a pair whose renamed windowed legacy table and current
table are both nonempty and have different column sets, the concatenated
frame carries the union of the two column sets and contains a missing cell,
the integer conversion fails with the NaN-cast error, and no output file is
written for the pair in any batch whose entries targeting this output path
are this pair. -/
theorem mismatch_no_output (cfg : MergeConfig) (newF oldF : String)
    (oldT newT : Table)
    (hold : readCsv cfg.oldStore (pathJoin cfg.oldFold oldF) = some oldT)
    (hyr : "År" ∈ oldT.cols)
    (hnew : readCsv cfg.newStore (pathJoin cfg.newFold newF) = some newT)
    (hwfo : oldT.wf) (hwfn : newT.wf)
    (hne1 : (windowRows cfg.oldSt cfg.oldEnd oldT).rows ≠ [])
    (hne2 : newT.rows ≠ [])
    (hdiff : ¬ sameColSet (renameTable (windowRows cfg.oldSt cfg.oldEnd oldT)).cols newT.cols) :
    (concatTables (renameTable (windowRows cfg.oldSt cfg.oldEnd oldT)) newT).cols =
      unionCols (renameTable (windowRows cfg.oldSt cfg.oldEnd oldT)).cols newT.cols ∧
    (∃ r ∈ (concatTables (renameTable (windowRows cfg.oldSt cfg.oldEnd oldT)) newT).cells,
      none ∈ r) ∧
    mergePair cfg newF oldF = .error PipeError.intCastingNaN ∧
    (∀ mapping : List (String × String),
      (∀ entry ∈ mapping,
        pathJoin cfg.mergeFold entry.1 = pathJoin cfg.mergeFold newF →
        entry = (newF, oldF)) →
      ∀ t, (pathJoin cfg.mergeFold newF, t) ∉ (runBatch cfg mapping).written) := by
  have hawf : (renameTable (windowRows cfg.oldSt cfg.oldEnd oldT)).wf :=
    renameTable_wf _ (windowRows_wf _ _ _ hwfo)
  have hane : (renameTable (windowRows cfg.oldSt cfg.oldEnd oldT)).rows ≠ [] :=
    fun hnil => hne1 ((renameTable_rows_nil _).1 hnil)
  have hfail : rowsToInt (roundOTable (concatTables
      (renameTable (windowRows cfg.oldSt cfg.oldEnd oldT)) newT)).cells = none := by
    rw [concat_round_fail_iff _ _ hawf hwfn]
    rw [sameColSet_iff_subsets] at hdiff
    rcases not_and_or.1 hdiff with hd | hd
    · exact Or.inl ⟨hane, hd⟩
    · exact Or.inr ⟨hne2, hd⟩
  have herr : mergePair cfg newF oldF = .error PipeError.intCastingNaN := by
    rw [mergePair_eq cfg newF oldF oldT newT hold hyr hnew]
    exact astypeInt_eq_error _ hfail
  refine ⟨rfl, ?_, herr, ?_⟩
  · have hfail2 : rowsToInt (((concatTables
        (renameTable (windowRows cfg.oldSt cfg.oldEnd oldT)) newT).cells).map
          (fun r => r.map roundCell)) = none := hfail
    obtain ⟨r', hr', hnone⟩ := (rowsToInt_eq_none_iff _).1 hfail2
    obtain ⟨r, hr, rfl⟩ := List.mem_map.1 hr'
    rw [rowToInt_eq_none_iff, List.mem_map] at hnone
    obtain ⟨c, hc, hcnone⟩ := hnone
    rw [roundCell_eq_none] at hcnone
    subst hcnone
    exact ⟨r, hr, hc⟩
  · intro mapping huniq t hmem
    obtain ⟨entry, hent, hpath, hok⟩ := runBatch_written_mem cfg mapping _ hmem
    rw [huniq entry hent hpath.symm] at hok
    rw [herr] at hok
    cases hok

/-- Witness for C2 (amended): in the singleton batch over the mismatched
nonempty pair `vOld`, `vNew`, no output is written under the pair's output
path. -/
theorem mismatch_no_output_witness :
    (pathJoin "out" "V.csv", (⟨["År"], []⟩ : ITable)) ∉
      (runBatch vCfg [("V.csv", "V.csv")]).written :=
  (mismatch_no_output vCfg "V.csv" "V.csv" vOld vNew (by decide) (by decide)
    (by decide) (by decide) (by decide) (by decide) (by decide)
    (fun h => absurd ((h "Ekstra").2 (by decide)) (by decide))).2.2.2
    [("V.csv", "V.csv")] (by decide) ⟨["År"], []⟩

unseal Rat.sub Rat.mul in
/-- Counterexample to C2 as stated: with an empty windowed legacy slice whose
columns form a strict subset of the current ones, the column sets differ and
yet the batch writes an output file for the pair — the merge completes with
no error and the written table carries the union column `Ekstra`. -/
theorem mismatch_written_counterexample :
    (¬ sameColSet (renameTable (windowRows 1990 2017 cxOld)).cols cxNew.cols) ∧
    runBatch cxCfg [("C.csv", "L.csv")] =
      ⟨[(pathJoin "../report_2020/jose_data_updated_2018-20" "C.csv",
         ⟨["År", "Ekstra"], [[2018, 5]]⟩)], none⟩ := by
  constructor
  · intro h
    exact absurd ((h "Ekstra").2 (by decide)) (by decide)
  · rfl

/-- C3: for a valid pair — files present, well-formed tables, matching column
sets after rename — with disjoint year coverage between the windowed legacy
slice and the current table, the merge succeeds and the output row count is
the number of legacy rows inside the historical window plus the number of
current rows. -/
theorem merged_row_count (cfg : MergeConfig) (newF oldF : String)
    (oldT newT : Table)
    (hold : readCsv cfg.oldStore (pathJoin cfg.oldFold oldF) = some oldT)
    (hyr : "År" ∈ oldT.cols)
    (hnew : readCsv cfg.newStore (pathJoin cfg.newFold newF) = some newT)
    (hwfo : oldT.wf) (hwfn : newT.wf)
    (hsame : sameColSet (renameTable (windowRows cfg.oldSt cfg.oldEnd oldT)).cols newT.cols)
    (_hdisj : ∀ r1 ∈ (windowRows cfg.oldSt cfg.oldEnd oldT).rows, ∀ r2 ∈ newT.rows,
      ∀ y1 y2, lookupCol "År" r1 = some y1 → lookupCol "År" r2 = some y2 → y1 ≠ y2) :
    ∃ t, mergePair cfg newF oldF = .ok t ∧
      t.cells.length =
        oldT.rows.countP (rowInWindow cfg.oldSt cfg.oldEnd) + newT.rows.length := by
  have hawf : (renameTable (windowRows cfg.oldSt cfg.oldEnd oldT)).wf :=
    renameTable_wf _ (windowRows_wf _ _ _ hwfo)
  have hsub := (sameColSet_iff_subsets _ _).1 hsame
  obtain ⟨t, ht⟩ := (merge_ok_iff _ newT hawf hwfn).2 ⟨Or.inr hsub.1, Or.inr hsub.2⟩
  refine ⟨t, by rw [mergePair_eq cfg newF oldF oldT newT hold hyr hnew]; exact ht, ?_⟩
  obtain ⟨hcells, _⟩ := astypeInt_ok_elim _ t ht
  have hlen := rowsToInt_length _ _ hcells
  rw [hlen]
  simp [roundOTable, concatTables, renameTable, windowRows, List.countP_eq_length_filter]

/-- Witness for C3: the matching pair `wOld`, `wNew` — one legacy row inside
the window, one current row. -/
theorem merged_row_count_witness :
    ∃ t, mergePair wCfg "W.csv" "W.csv" = .ok t ∧
      t.cells.length = wOld.rows.countP (rowInWindow 1990 2017) + wNew.rows.length :=
  merged_row_count wCfg "W.csv" "W.csv" wOld wNew (by decide) (by decide) (by decide)
    (by decide) (by decide)
    (by rw [sameColSet_iff_subsets]; exact ⟨by decide, by decide⟩)
    (by
      intro r1 hr1 r2 hr2 y1 y2 h1 h2
      have hr1' : r1 ∈ [[("År", (1995 : ℚ)), ("Bakgrun", 3)]] := hr1
      have hr2' : r2 ∈ [[("År", (2018 : ℚ)), ("Bakgrunn", 4)]] := hr2
      have e1 : r1 = [("År", (1995 : ℚ)), ("Bakgrun", 3)] := List.mem_singleton.1 hr1'
      have e2 : r2 = [("År", (2018 : ℚ)), ("Bakgrunn", 4)] := List.mem_singleton.1 hr2'
      subst e1
      subst e2
      have h1' : some (1995 : ℚ) = some y1 := h1
      have h2' : some (2018 : ℚ) = some y2 := h2
      cases h1'
      cases h2'
      decide)

/-- C7: a successful merge's output cells are exactly the normalized windowed
legacy block followed by the normalized current block, each block in its
original input order — the merge performs no sorting — so an ordering
relation holds along the whole output only if it already holds along each
input block. -/
theorem merged_block_structure (cfg : MergeConfig) (newF oldF : String)
    (oldT newT : Table) (t : ITable) (ca cb : List (List ℤ))
    (hold : readCsv cfg.oldStore (pathJoin cfg.oldFold oldF) = some oldT)
    (hyr : "År" ∈ oldT.cols)
    (hnew : readCsv cfg.newStore (pathJoin cfg.newFold newF) = some newT)
    (ha : rowsToInt (((renameTable (windowRows cfg.oldSt cfg.oldEnd oldT)).rows.map
        (alignRow (unionCols (renameTable (windowRows cfg.oldSt cfg.oldEnd oldT)).cols
          newT.cols))).map (fun r => r.map roundCell)) = some ca)
    (hb : rowsToInt ((newT.rows.map
        (alignRow (unionCols (renameTable (windowRows cfg.oldSt cfg.oldEnd oldT)).cols
          newT.cols))).map (fun r => r.map roundCell)) = some cb)
    (hok : mergePair cfg newF oldF = .ok t) :
    t.cells = ca ++ cb ∧
    ca.length = (windowRows cfg.oldSt cfg.oldEnd oldT).rows.length ∧
    cb.length = newT.rows.length ∧
    (∀ R : List ℤ → List ℤ → Prop, t.cells.Pairwise R → ca.Pairwise R ∧ cb.Pairwise R) := by
  rw [mergePair_eq cfg newF oldF oldT newT hold hyr hnew] at hok
  obtain ⟨hcells, _⟩ := astypeInt_ok_elim _ t hok
  have hsplit : (roundOTable (concatTables
      (renameTable (windowRows cfg.oldSt cfg.oldEnd oldT)) newT)).cells =
      (((renameTable (windowRows cfg.oldSt cfg.oldEnd oldT)).rows.map
        (alignRow (unionCols (renameTable (windowRows cfg.oldSt cfg.oldEnd oldT)).cols
          newT.cols))).map (fun r => r.map roundCell)) ++
      ((newT.rows.map
        (alignRow (unionCols (renameTable (windowRows cfg.oldSt cfg.oldEnd oldT)).cols
          newT.cols))).map (fun r => r.map roundCell)) := by
    simp [roundOTable, concatTables]
  rw [hsplit] at hcells
  obtain ⟨ca', cb', ha', hb', hcat⟩ := rowsToInt_append _ _ _ hcells
  rw [ha] at ha'
  rw [hb] at hb'
  cases ha'
  cases hb'
  have hlen1 : ca.length = (windowRows cfg.oldSt cfg.oldEnd oldT).rows.length := by
    have := rowsToInt_length _ _ ha
    simpa [renameTable] using this
  have hlen2 : cb.length = newT.rows.length := by
    have := rowsToInt_length _ _ hb
    simpa using this
  refine ⟨hcat, hlen1, hlen2, fun R h => ?_⟩
  rw [hcat] at h
  exact ⟨(List.pairwise_append.1 h).1, (List.pairwise_append.1 h).2.1⟩

unseal Rat.sub Rat.mul in
/-- Witness for C7: the concrete matching pair `wOld`, `wNew`, whose merged
output is the windowed legacy row followed by the current row. -/
theorem merged_block_structure_witness :
    (⟨["År", "Bakgrunn"], [[1995, 3], [2018, 4]]⟩ : ITable).cells =
      [[1995, 3]] ++ [[2018, 4]] ∧
    ([[1995, 3]] : List (List ℤ)).length = (windowRows 1990 2017 wOld).rows.length ∧
    ([[2018, 4]] : List (List ℤ)).length = wNew.rows.length :=
  have h := merged_block_structure wCfg "W.csv" "W.csv" wOld wNew
    ⟨["År", "Bakgrunn"], [[1995, 3], [2018, 4]]⟩ [[1995, 3]] [[2018, 4]]
    (by decide) (by decide) (by decide) (by rfl) (by rfl) (by rfl)
  ⟨h.1, h.2.1, h.2.2.1⟩

/-- A configuration with both stores empty: every read fails. -/
def mCfg : MergeConfig := ⟨"jose_data", "data", "out", [], [], 1990, 2017⟩

/-- A configuration whose legacy store holds `wOld` under `B.csv` but whose
current store is empty. -/
def m2Cfg : MergeConfig :=
  ⟨"jose_data", "data", "out",
   [(pathJoin "jose_data" "B.csv", wOld)], [], 1990, 2017⟩

/-- C9: a missing legacy file makes the pair fail with `MissingInputError`
naming the legacy path; with the legacy file present (and windowable), a
missing current file makes the pair fail with `MissingInputError` naming the
current path; and a failed pair writes no output file — in any batch whose
entries targeting this output path are this pair, the path does not appear
among the written files. -/
theorem missing_input_spec (cfg : MergeConfig) (newF oldF : String) :
    (readCsv cfg.oldStore (pathJoin cfg.oldFold oldF) = none →
      mergePair cfg newF oldF = .error (.missingInput (pathJoin cfg.oldFold oldF))) ∧
    (∀ oldT, readCsv cfg.oldStore (pathJoin cfg.oldFold oldF) = some oldT →
      "År" ∈ oldT.cols →
      readCsv cfg.newStore (pathJoin cfg.newFold newF) = none →
      mergePair cfg newF oldF = .error (.missingInput (pathJoin cfg.newFold newF))) ∧
    (∀ err, mergePair cfg newF oldF = .error err →
      ∀ mapping : List (String × String),
        (∀ entry ∈ mapping,
          pathJoin cfg.mergeFold entry.1 = pathJoin cfg.mergeFold newF →
          entry = (newF, oldF)) →
        ∀ t, (pathJoin cfg.mergeFold newF, t) ∉ (runBatch cfg mapping).written) := by
  refine ⟨fun h => ?_, fun oldT h1 h2 h3 => ?_, fun err herr mapping huniq t hmem => ?_⟩
  · simp only [mergePair, h]
  · simp only [mergePair, h1, queryWindow, if_pos h2, h3]
  · obtain ⟨entry, hent, hpath, hok⟩ := runBatch_written_mem cfg mapping _ hmem
    rw [huniq entry hent hpath.symm, herr] at hok
    cases hok

/-- Witness for C9: with an empty legacy store the pair fails naming the
legacy path; with the legacy file present and the current store empty it
fails naming the current path. -/
theorem missing_input_spec_witness :
    mergePair mCfg "A.csv" "B.csv" =
      .error (.missingInput (pathJoin "jose_data" "B.csv")) ∧
    mergePair m2Cfg "A.csv" "B.csv" =
      .error (.missingInput (pathJoin "data" "A.csv")) :=
  ⟨(missing_input_spec mCfg "A.csv" "B.csv").1 (by decide),
   (missing_input_spec m2Cfg "A.csv" "B.csv").2.1 wOld (by decide) (by decide) (by decide)⟩

/-- C10: entries are processed in mapping order; every entry of an
all-successful prefix writes exactly one output file, in order; the first
failing entry stops the batch with its error, earlier outputs remain in
place, and the result does not depend on the entries after the failing one —
they are never processed. -/
theorem batch_order_spec (cfg : MergeConfig) (pre post : List (String × String))
    (entry : String × String) (err : PipeError)
    (hpre : ∀ e ∈ pre, ∃ t, mergePair cfg e.1 e.2 = .ok t)
    (hfail : mergePair cfg entry.1 entry.2 = .error err) :
    (runBatch cfg (pre ++ entry :: post)).err = some err ∧
    (runBatch cfg (pre ++ entry :: post)).written.map Prod.fst =
      pre.map (fun e => pathJoin cfg.mergeFold e.1) ∧
    runBatch cfg (pre ++ entry :: post) = runBatch cfg (pre ++ [entry]) := by
  induction pre with
  | nil =>
    rw [List.nil_append, List.nil_append,
        runBatch_cons_error cfg entry post err hfail,
        runBatch_cons_error cfg entry [] err hfail]
    exact ⟨rfl, rfl, rfl⟩
  | cons e p ih =>
    obtain ⟨t, ht⟩ := hpre e (List.mem_cons_self e p)
    obtain ⟨h1, h2, h3⟩ := ih (fun e' he' => hpre e' (List.mem_cons_of_mem e he'))
    rw [List.cons_append, runBatch_cons_ok cfg e _ t ht,
        List.cons_append, runBatch_cons_ok cfg e _ t ht]
    refine ⟨h1, ?_, ?_⟩
    · simp only [List.map_cons]
      rw [h2]
    · rw [h3]

unseal Rat.sub Rat.mul in
/-- Witness for C10: a three-entry batch whose second entry names a missing
file — the first entry's output is written, the batch stops with the missing
input error, and the third entry is irrelevant to the result. -/
theorem batch_order_spec_witness :
    (runBatch wCfg ([("W.csv", "W.csv")] ++
      ("missing.csv", "missing.csv") :: [("W.csv", "W.csv")])).err =
        some (.missingInput (pathJoin "jose_data" "missing.csv")) ∧
    (runBatch wCfg ([("W.csv", "W.csv")] ++
      ("missing.csv", "missing.csv") :: [("W.csv", "W.csv")])).written.map Prod.fst =
        [pathJoin "out" "W.csv"] ∧
    runBatch wCfg ([("W.csv", "W.csv")] ++
      ("missing.csv", "missing.csv") :: [("W.csv", "W.csv")]) =
      runBatch wCfg ([("W.csv", "W.csv")] ++ [("missing.csv", "missing.csv")]) :=
  batch_order_spec wCfg [("W.csv", "W.csv")] [("W.csv", "W.csv")]
    ("missing.csv", "missing.csv") (.missingInput (pathJoin "jose_data" "missing.csv"))
    (by
      intro e he
      have h : e = ("W.csv", "W.csv") := List.mem_singleton.1 he
      subst h
      exact ⟨⟨["År", "Bakgrunn"], [[1995, 3], [2018, 4]]⟩, by rfl⟩)
    (by rfl)

theorem exportPars_names (store : Store) (dataFold region : String)
    (pars : List String) (sheets : List (String × Table))
    (h : exportPars store dataFold region pars = .ok sheets) :
    sheets.map Prod.fst = pars.map (sheetName region) := by
  induction pars generalizing sheets with
  | nil =>
    unfold exportPars at h
    cases h
    rfl
  | cons p rest ih =>
    unfold exportPars at h
    rcases h1 : readCsv store (pathJoin dataFold (region ++ "_" ++ p ++ ".csv"))
        with _ | df <;> rw [h1] at h
    · cases h
    · rcases h2 : exportPars store dataFold region rest with e | sheets' <;> rw [h2] at h
      · cases h
      · cases h
        simp [ih sheets' h2]

theorem exportAll_names (store : Store) (dataFold : String)
    (pars regions : List String) (sheets : List (String × Table))
    (h : exportAll store dataFold pars regions = .ok sheets) :
    sheets.map Prod.fst = regions.flatMap (fun r => pars.map (sheetName r)) := by
  induction regions generalizing sheets with
  | nil =>
    unfold exportAll at h
    cases h
    rfl
  | cons region rest ih =>
    unfold exportAll at h
    rcases h1 : exportPars store dataFold region pars with e | regionSheets <;> rw [h1] at h
    · cases h
    · rcases h2 : exportAll store dataFold pars rest with e | more <;> rw [h2] at h
      · cases h
      · cases h
        rw [List.flatMap_cons, List.map_append, ih more h2, exportPars_names _ _ _ _ _ h1]

/-- The four current-year report tables of the C8 scenario. -/
def xGP : Table := ⟨["År", "Bakgrunn"], [[("År", 2022), ("Bakgrunn", 11)]]⟩

/-- The Glomma nitrogen table of the C8 scenario. -/
def xGN : Table := ⟨["År", "Bakgrunn"], [[("År", 2022), ("Bakgrunn", 12)]]⟩

/-- The Agder phosphorus table of the C8 scenario. -/
def xAP : Table := ⟨["År", "Bakgrunn"], [[("År", 2022), ("Bakgrunn", 13)]]⟩

/-- The Agder nitrogen table of the C8 scenario. -/
def xAN : Table := ⟨["År", "Bakgrunn"], [[("År", 2022), ("Bakgrunn", 14)]]⟩

/-- The data directory of the C8 scenario: the four matching CSVs present. -/
def xStore : Store :=
  [(pathJoin "data" "Glomma_p.csv", xGP),
   (pathJoin "data" "Glomma_n.csv", xGN),
   (pathJoin "data" "Agder_p.csv", xAP),
   (pathJoin "data" "Agder_n.csv", xAN)]

/-- C8: the exporter emits exactly one worksheet per (region, parameter)
pair, named "region (P)" or "region (N)" with the parameter letter
capitalized, in regions-outer parameters-inner order; for regions
[Glomma, Agder] and parameters [p, n] with the four CSVs present, the
workbook is exactly the four sheets Glomma (P), Glomma (N), Agder (P),
Agder (N) in that order, each carrying its CSV's table unchanged (no index
column is added). -/
theorem exporter_sheets :
    (∀ (store : Store) (dataFold : String) (pars regions : List String)
      (sheets : List (String × Table)),
      exportAll store dataFold pars regions = .ok sheets →
      sheets.map Prod.fst = regions.flatMap (fun r => pars.map (sheetName r))) ∧
    exportAll xStore "data" ["p", "n"] ["Glomma", "Agder"] =
      .ok [("Glomma (P)", xGP), ("Glomma (N)", xGN), ("Agder (P)", xAP), ("Agder (N)", xAN)] :=
  ⟨exportAll_names, by rfl⟩

/-- Witness for C8: the naming conjunct applied to the concrete scenario,
whose sheets the second conjunct computes. -/
theorem exporter_sheets_witness :
    ([("Glomma (P)", xGP), ("Glomma (N)", xGN), ("Agder (P)", xAP),
      ("Agder (N)", xAN)].map Prod.fst : List String) =
      ["Glomma (P)", "Glomma (N)", "Agder (P)", "Agder (N)"] :=
  exporter_sheets.1 xStore "data" ["p", "n"] ["Glomma", "Agder"] _ exporter_sheets.2
